import Mathlib

/-!
Shallow embedding of the release-year resolution pipeline of `deckify.py`
(Title Normalizer `clean_song_title`, Date Parser `try_parsing_date`, the
MusicBrainz stage `get_release_year_musicbrainz`, the Release-Year Resolver
`extract_year_from_discogs_data`, and the Track Enrichment step
`add_track_to_data`), together with theorems settling the frozen claims.

Conventions of the embedding:
* Python strings are Lean `String`/`List Char`; the whitespace class `\s`
  and `str.strip` are modelled on the ASCII whitespace characters.
* JSON dictionaries are modelled as structures whose optional keys are
  `Option` fields; a Python `KeyError` (or a failing API call) surfaces as
  `Except PyError`.
* The three network calls are modelled as oracles in an `Env` record: the
  Discogs search outcome, the MusicBrainz response keyed by the query
  string actually sent, and the Spotify album lookup keyed by album id.
* Python `list.sort` is a stable ascending sort; it is modelled by
  `List.insertionSort` (stable), with Python's comparison on the sort keys.
-/

/-! ## Python string primitives -/

/-- The Python `\s` character class / `str.strip` whitespace set
(ASCII part: space, tab, newline, carriage return, vertical tab, form feed). -/
def isSpacePy (c : Char) : Bool :=
  c = ' ' || c = '\t' || c = '\n' || c = '\r' || c = '\x0b' || c = '\x0c'

/-- Python `str.strip()`: remove leading and trailing whitespace. -/
def pyStrip (l : List Char) : List Char :=
  ((l.dropWhile isSpacePy).reverse.dropWhile isSpacePy).reverse

/-- Python `s.split('-')[0]`: the prefix of `s` before the first `'-'`
(`s` itself when there is no `'-'`). -/
def pySplitHeadDash (s : String) : String :=
  ⟨s.data.takeWhile (fun c => c ≠ '-')⟩

/-- Python `str(...)` applied to an optional string (`str(None) = "None"`),
as an f-string renders it. -/
def pyStr (o : Option String) : String :=
  match o with
  | none => "None"
  | some s => s

/-! ## Title Normalizer: `clean_song_title`

`clean_song_title` applies, in order, the four Python substitutions
`re.sub(r'\s*\(.*?\)\s*', '', ·)`, the same for `[...]` and `{...}`,
`re.sub(r'\s*-.*', '', ·)`, and finally `str.strip`.

A match of `\s*<op>.*?<cl>\s*` at a position consists of a maximal
whitespace run, the opening delimiter, the shortest run of non-newline
characters up to the closing delimiter, and a maximal trailing whitespace
run.  (`.` does not match a newline; `\s` does.)  `re.sub` replaces the
leftmost match, then continues scanning after it. -/

/-- Scan for the closing delimiter `cl`; `.*?` only crosses non-newline
characters.  On success returns the characters after `cl`. -/
def findClose (cl : Char) : List Char → Option (List Char)
  | [] => none
  | c :: cs => if c = cl then some cs else if c = '\n' then none else findClose cl cs

/-- Try to match `\s*<op>.*?<cl>\s*` at the head of `l`; on success return
the remainder of the string after the match. -/
def matchBrk (op cl : Char) (l : List Char) : Option (List Char) :=
  match l.dropWhile isSpacePy with
  | [] => none
  | c :: cs =>
    if c = op then
      match findClose cl cs with
      | some r => some (r.dropWhile isSpacePy)
      | none => none
    else none

/-- `re.sub(r'\s*<op>.*?<cl>\s*', '', ·)`: replace every match, scanning
left to right.  The `Nat` argument is structural fuel (any value at least
the length of the list gives the substitution's value); `subBrk` below
instantiates it. -/
def subBrkF (op cl : Char) : Nat → List Char → List Char
  | 0, l => l
  | _ + 1, [] => []
  | n + 1, c :: cs =>
    match matchBrk op cl (c :: cs) with
    | some rest => subBrkF op cl n rest
    | none => c :: subBrkF op cl n cs

/-- `re.sub(r'\s*<op>.*?<cl>\s*', '', l)`. -/
def subBrk (op cl : Char) (l : List Char) : List Char :=
  subBrkF op cl l.length l

/-- Try to match `\s*-.*` at the head of `l`; on success return the
remainder (the greedy `.*` consumes to the end of the line). -/
def matchHyp (l : List Char) : Option (List Char) :=
  match l.dropWhile isSpacePy with
  | [] => none
  | c :: cs => if c = '-' then some (cs.dropWhile (fun x => x ≠ '\n')) else none

/-- `re.sub(r'\s*-.*', '', ·)` with structural fuel, as in `subBrkF`. -/
def subHypF : Nat → List Char → List Char
  | 0, l => l
  | _ + 1, [] => []
  | n + 1, c :: cs =>
    match matchHyp (c :: cs) with
    | some rest => subHypF n rest
    | none => c :: subHypF n cs

/-- `re.sub(r'\s*-.*', '', l)`. -/
def subHyp (l : List Char) : List Char :=
  subHypF l.length l

/-- `clean_song_title`: strip parenthesised, bracketed and braced runs,
then everything from a hyphen on, then surrounding whitespace. -/
def clean_song_title (title : String) : String :=
  let l1 := subBrk '(' ')' title.data
  let l2 := subBrk '[' ']' l1
  let l3 := subBrk '{' '}' l2
  let l4 := subHyp l3
  ⟨pyStrip l4⟩

/-! ## Date Parser: `try_parsing_date`

Python's `datetime.strptime` compiles each format into a regular
expression (`%Y` ↦ four digits, `%m` ↦ `1[0-2]|0[1-9]|[1-9]`, `%d` ↦
`3[01]|[12]\d|0[1-9]|[1-9]`), requires the match to consume the whole
input, and then builds a `datetime`, which validates the calendar date
(year between 1 and 9999, day at most the month's length). -/

/-- A parsed `datetime` at day precision (the time part is always zero
here); comparison is calendar (lexicographic) order. -/
structure PDate where
  year : Nat
  month : Nat
  day : Nat
deriving DecidableEq, Repr

/-- Calendar order on parsed dates (Python `datetime` comparison). -/
def PDate.le (a b : PDate) : Prop :=
  a.year < b.year ∨
    (a.year = b.year ∧ (a.month < b.month ∨ (a.month = b.month ∧ a.day ≤ b.day)))

instance (a b : PDate) : Decidable (PDate.le a b) := by
  unfold PDate.le
  exact inferInstance

/-- Numeric value of a decimal digit character. -/
def digitVal (c : Char) : Nat := c.toNat - '0'.toNat

/-- `%Y`: exactly four digits. -/
def parse4Y : List Char → Option (Nat × List Char)
  | a :: b :: c :: d :: rest =>
    if a.isDigit && b.isDigit && c.isDigit && d.isDigit then
      some (1000 * digitVal a + 100 * digitVal b + 10 * digitVal c + digitVal d, rest)
    else none
  | _ => none

/-- The two-digit alternatives `1[0-2]|0[1-9]` of `%m`. -/
def parseMonth2 : List Char → Option (Nat × List Char)
  | c1 :: c2 :: rest =>
    if c1 = '1' && '0' ≤ c2 && c2 ≤ '2' then some (10 + digitVal c2, rest)
    else if c1 = '0' && '1' ≤ c2 && c2 ≤ '9' then some (digitVal c2, rest)
    else none
  | _ => none

/-- The one-digit alternative `[1-9]` (of `%m` and of `%d`). -/
def parseDigit1 : List Char → Option (Nat × List Char)
  | c1 :: rest => if '1' ≤ c1 && c1 ≤ '9' then some (digitVal c1, rest) else none
  | [] => none

/-- `%m`, alternatives in the regex's order.  (Backtracking from the
two-digit into the one-digit branch never succeeds: the one-digit branch
would then need a dash where a digit stands, so first-match is faithful.) -/
def monthAlt (l : List Char) : Option (Nat × List Char) :=
  match parseMonth2 l with
  | some x => some x
  | none => parseDigit1 l

/-- The two-digit alternatives `3[01]|[12]\d|0[1-9]` of `%d`. -/
def parseDay2 : List Char → Option (Nat × List Char)
  | c1 :: c2 :: rest =>
    if c1 = '3' && (c2 = '0' || c2 = '1') then some (30 + digitVal c2, rest)
    else if (c1 = '1' || c1 = '2') && c2.isDigit then
      some (10 * digitVal c1 + digitVal c2, rest)
    else if c1 = '0' && '1' ≤ c2 && c2 ≤ '9' then some (digitVal c2, rest)
    else none
  | _ => none

/-- `%d`, alternatives in the regex's order (same first-match remark as
for `%m`). -/
def dayAlt (l : List Char) : Option (Nat × List Char) :=
  match parseDay2 l with
  | some x => some x
  | none => parseDigit1 l

/-- The literal `-` of the formats. -/
def litDash : List Char → Option (List Char)
  | '-' :: rest => some rest
  | _ => none

/-- Gregorian leap year (as `calendar.isleap` / `datetime`). -/
def isLeap (y : Nat) : Bool :=
  y % 4 = 0 && (y % 100 ≠ 0 || y % 400 = 0)

/-- Length of a month (as `datetime`). -/
def daysInMonth (y m : Nat) : Nat :=
  if m = 2 then (if isLeap y then 29 else 28)
  else if m = 4 || m = 6 || m = 9 || m = 11 then 30
  else 31

/-- The `datetime(y, m, d)` constructor: validates the calendar date,
raising (here: `none`) out of range. -/
def mkDate (y m d : Nat) : Option PDate :=
  if 1 ≤ y && y ≤ 9999 && 1 ≤ m && m ≤ 12 && 1 ≤ d && d ≤ daysInMonth y m then
    some ⟨y, m, d⟩
  else none

/-- `datetime.strptime(text, '%Y-%m-%d')`. -/
def strptimeYmd (l : List Char) : Option PDate :=
  match parse4Y l with
  | none => none
  | some (y, r1) =>
    match litDash r1 with
    | none => none
    | some r2 =>
      match monthAlt r2 with
      | none => none
      | some (m, r3) =>
        match litDash r3 with
        | none => none
        | some r4 =>
          match dayAlt r4 with
          | none => none
          | some (d, r5) => if r5 = [] then mkDate y m d else none

/-- `datetime.strptime(text, '%Y-%m')` (day defaults to 1). -/
def strptimeYm (l : List Char) : Option PDate :=
  match parse4Y l with
  | none => none
  | some (y, r1) =>
    match litDash r1 with
    | none => none
    | some r2 =>
      match monthAlt r2 with
      | none => none
      | some (m, r3) => if r3 = [] then mkDate y m 1 else none

/-- `datetime.strptime(text, '%Y')` (month and day default to 1). -/
def strptimeY (l : List Char) : Option PDate :=
  match parse4Y l with
  | none => none
  | some (y, r1) => if r1 = [] then mkDate y 1 1 else none

/-- The format strings of `try_parsing_date`, in the source's order. -/
inductive DateFmt where
  | Ymd
  | Ym
  | Y
deriving DecidableEq, Repr

/-- One `datetime.strptime(text, fmt)` attempt. -/
def strptime (fmt : DateFmt) (l : List Char) : Option PDate :=
  match fmt with
  | .Ymd => strptimeYmd l
  | .Ym => strptimeYm l
  | .Y => strptimeY l

/-- The `date_formats` list of the source. -/
def date_formats : List DateFmt := [.Ymd, .Ym, .Y]

/-- The format loop of `try_parsing_date`: first successful parse wins. -/
def tryFormats (l : List Char) : List DateFmt → Option PDate
  | [] => none
  | f :: fs =>
    match strptime f l with
    | some d => some d
    | none => tryFormats l fs

/-- `try_parsing_date`: try `%Y-%m-%d`, `%Y-%m`, `%Y` in order; `none`
when no format matches. -/
def try_parsing_date (text : String) : Option PDate :=
  tryFormats text.data date_formats

/-! ## Data model of the pipeline

JSON dictionaries become structures with `Option` fields for optional
keys; exceptions that the source lets escape become `Except PyError`. -/

/-- The Python exceptions the resolver can let escape. -/
inductive PyError where
  | keyError (key : String)
  | spotifyApiError
deriving DecidableEq, Repr

/-- One entry of the Discogs search response's `results` list (only its
optional `year` field is ever read; Discogs renders it as a string). -/
structure DiscogsResult where
  year? : Option String
deriving DecidableEq, Repr

/-- The parsed JSON body returned by `fetch_discogs_data`: the `results`
key may be absent. -/
structure DiscogsData where
  results? : Option (List DiscogsResult)
deriving DecidableEq, Repr

/-- Outcome of the `fetch_discogs_data` call: `err` models the
`requests.exceptions.RequestException` path, in which the function
returns `None`. -/
inductive DiscogsOutcome where
  | err
  | ok (dd : DiscogsData)

/-- One entry of a MusicBrainz recording's `releases` list.
`artistCredit?` models `release['artist-credit']`:
`none` when the key is absent or the list empty (the source then uses
`"N/A"`), `some (some name)` when `[0]['artist']['name']` resolves, and
`some none` when the credit entry is present but malformed, which makes
the subscripting raise. -/
structure MBRelease where
  title? : Option String
  date? : Option String
  artistCredit? : Option (Option String)
deriving DecidableEq, Repr

/-- One entry of the MusicBrainz `recordings` list; its `releases` key
may be absent, in which case `recordings[0]['releases']` raises. -/
structure MBRecording where
  releases? : Option (List MBRelease)
deriving DecidableEq, Repr

/-- Outcome of the MusicBrainz request: `err` collapses the request
exception, the non-200 status and the missing/unparseable `recordings`
key (the source returns "N/A" for each). -/
inductive MBOutcome where
  | err
  | ok (recordings : List MBRecording)

/-- Outcome of `spotify.album(album_id)`: `err` models the call raising;
otherwise the album dict may or may not carry `release_date`. -/
inductive SpotifyAlbumOutcome where
  | err
  | ok (release_date? : Option String)

/-- The network oracles: the Discogs search keyed by (artist, title), the
MusicBrainz search keyed by the query string sent, and the Spotify album
lookup keyed by album id. -/
structure Env where
  discogs : Option String → String → DiscogsOutcome
  mb : String → MBOutcome
  spotifyAlbum : String → SpotifyAlbumOutcome

/-! ## The MusicBrainz stage: `get_release_year_musicbrainz` -/

/-- The query string `f'artist:{artist_name} AND recording:{song_title}'`
built after `clean_song_title` (a `None` artist renders as "None"). -/
def mb_query (artist_name : Option String) (song_title : String) : String :=
  "artist:" ++ pyStr artist_name ++ " AND recording:" ++ clean_song_title song_title

/-- The `(title, date-or-"N/A", artist-or-"N/A")` triple the list
comprehension builds per release. -/
structure MBCand where
  title : String
  dateStr : String
  artist : String
deriving DecidableEq, Repr

/-- One step of the comprehension body: reads `release['title']`, maps an
unparseable date to "N/A", and resolves the artist credit; missing keys
raise. -/
def buildCand (r : MBRelease) : Except PyError MBCand :=
  match r.title? with
  | none => .error (.keyError "title")
  | some ti =>
    let dateStr := r.date?.getD ""
    let dstr := if (try_parsing_date dateStr).isSome then dateStr else "N/A"
    match r.artistCredit? with
    | none => .ok ⟨ti, dstr, "N/A"⟩
    | some none => .error (.keyError "artist")
    | some (some nm) => .ok ⟨ti, dstr, nm⟩

/-- The comprehension over `recordings[0]['releases']`, restricted to
releases carrying a `date` key; it is evaluated eagerly, so one malformed
release raises for the whole call. -/
def mbCandidates (rels : List MBRelease) : Except PyError (List MBCand) :=
  (rels.filter (fun r => r.date?.isSome)).mapM buildCand

/-- Sort key of the release sort: `try_parsing_date(x[1])` (total on the
surviving candidates, whose dates all parse). -/
def candKey (c : MBCand) : PDate :=
  (try_parsing_date c.dateStr).getD ⟨1, 1, 1⟩

/-- The comparison the stable ascending sort uses. -/
def candLe (a b : MBCand) : Prop :=
  PDate.le (candKey a) (candKey b)

instance : DecidableRel candLe := fun a b => by
  unfold candLe
  exact inferInstance

instance : IsTotal MBCand candLe :=
  ⟨fun a b => by
    unfold candLe PDate.le
    omega⟩

instance : IsTrans MBCand candLe :=
  ⟨fun a b c h1 h2 => by
    unfold candLe PDate.le at h1 h2 ⊢
    omega⟩

/-- The two filters after the comprehension: drop "Various Artists"
credits, then drop candidates whose date failed the Date Parser. -/
def mbSurvivors (cands : List MBCand) : List MBCand :=
  (cands.filter (fun c => c.artist ≠ "Various Artists")).filter
    (fun c => c.dateStr ≠ "N/A")

/-- The body of `get_release_year_musicbrainz` after a 200 response whose
`recordings` key parsed: only the first recording is consulted; its
surviving candidates are sorted ascending by parsed date and the earliest
date string is returned ("N/A" when none survive). -/
def mb_process (recordings : List MBRecording) : Except PyError String :=
  match recordings with
  | [] => .ok "N/A"
  | rec0 :: _ =>
    match rec0.releases? with
    | none => .error (.keyError "releases")
    | some rels =>
      match mbCandidates rels with
      | .error e => .error e
      | .ok cands =>
        match List.insertionSort candLe (mbSurvivors cands) with
        | [] => .ok "N/A"
        | c :: _ => .ok c.dateStr

/-- `get_release_year_musicbrainz`: returns a full date string (not just
a year) or "N/A"; any request/parse failure degrades to "N/A", but a
malformed recording or release shape raises. -/
def get_release_year_musicbrainz (env : Env) (artist_name : Option String)
    (song_title : String) : Except PyError String :=
  match env.mb (mb_query artist_name song_title) with
  | .err => .ok "N/A"
  | .ok recordings => mb_process recordings

/-! ## The Release-Year Resolver: `extract_year_from_discogs_data` -/

/-- The Spotify album object's optional `name`/`id` fields. -/
structure AlbumObj where
  name? : Option String
  id? : Option String
deriving DecidableEq, Repr

/-- The fields of a raw track dictionary that the source reads.
`artists?` is `none` when the `artists` key is missing (or an entry lacks
`name`), making the comprehension raise. -/
structure TrackData where
  id? : Option String
  name? : Option String
  url? : Option String
  artists? : Option (List String)
  album? : Option AlbumObj
deriving DecidableEq, Repr

/-- A raw item of the listing: `track?` is its `track` key (the playlist
shape; `none` when absent), `self` the item's own fields (the album
shape).  `item["album"]` in the resolver reads `self.album?`. -/
structure Item where
  track? : Option TrackData
  self : TrackData
deriving DecidableEq, Repr

/-- Sort key of the Discogs result sort (`x['year']`; total on the
filtered results, which all carry the key). -/
def dgYear (r : DiscogsResult) : String :=
  r.year?.getD ""

/-- Python's lexicographic string comparison `a <= b`, by code point. -/
def pyCharsLe : List Char → List Char → Bool
  | [], _ => true
  | _ :: _, [] => false
  | a :: as, b :: bs => if a < b then true else if b < a then false else pyCharsLe as bs

/-- The comparison of the stable ascending Discogs sort (Python string
comparison of the `year` values). -/
def dgLe (a b : DiscogsResult) : Prop :=
  pyCharsLe (dgYear a).data (dgYear b).data = true

instance : DecidableRel dgLe := fun a b => by
  unfold dgLe
  exact inferInstance

/-- `extract_year_from_discogs_data`, the Release-Year Resolver.
Stage 1: earliest `year` among the Discogs results; when the `results`
key is present but no result carries a year, stage 2 (MusicBrainz) is
tried and its failure yields "N/A" directly.  Only when the `results`
key is absent does a MusicBrainz failure fall through to stage 3, the
Spotify album lookup, whose subscripting and API call can raise. -/
def extract_year_from_discogs_data (env : Env) (discogs_data : DiscogsData)
    (artist : Option String) (title : String) (item : Item) : Except PyError String :=
  match discogs_data.results? with
  | some results =>
    match List.insertionSort dgLe (results.filter (fun r => r.year?.isSome)) with
    | r :: _ => .ok (dgYear r)
    | [] =>
      match get_release_year_musicbrainz env artist title with
      | .error e => .error e
      | .ok date => if date ≠ "N/A" then .ok (pySplitHeadDash date) else .ok "N/A"
  | none =>
    match get_release_year_musicbrainz env artist title with
    | .error e => .error e
    | .ok date =>
      if date ≠ "N/A" then .ok (pySplitHeadDash date)
      else
        match item.self.album? with
        | none => .error (.keyError "album")
        | some alb =>
          match alb.id? with
          | none => .error (.keyError "id")
          | some album_id =>
            match env.spotifyAlbum album_id with
            | .err => .error .spotifyApiError
            | .ok rd? =>
              match rd? with
              | some rd => .ok (pySplitHeadDash rd)
              | none => .ok "N/A"

/-! ## The Track Enrichment step: `extract_track_info`, `add_track_to_data` -/

/-- The `spotify_type` tag. -/
inductive SpotifyType where
  | album
  | playlist
deriving DecidableEq, Repr

/-- The dictionary `extract_track_info` returns on success. -/
structure TrackInfo where
  id : String
  name : String
  artists : List String
  album : Option String
  url : String
deriving DecidableEq, Repr

/-- `extract_track_info`: reads the identity fields of the (possibly
wrapped) track dictionary; any missing key makes the `try` swallow the
exception and return `None`. -/
def extract_track_info (item : Item) (spotify_type : SpotifyType) : Option TrackInfo :=
  let td? := match spotify_type with
    | .playlist => item.track?
    | .album => some item.self
  match td? with
  | none => none
  | some td =>
    match td.id?, td.name?, td.url?, td.artists? with
    | some track_id, some name, some url, some artists =>
      match td.album? with
      | none => some ⟨track_id, name, artists, none, url⟩
      | some alb =>
        match alb.name? with
        | none => none
        | some an => some ⟨track_id, name, artists, some an, url⟩
    | _, _, _, _ => none

/-- The record store `data` of `main`: the five per-track columns.  A QR
image is identified by the URL it encodes. -/
structure CardData where
  Artist : List (Option String)
  Title : List String
  Year : List String
  URL : List String
  QRCode : List String
deriving DecidableEq, Repr

/-- The five appends at the end of `add_track_to_data`. -/
def pushRecord (data : CardData) (artist : Option String) (title year url qr : String) :
    CardData :=
  { Artist := data.Artist ++ [artist]
    Title := data.Title ++ [title]
    Year := data.Year ++ [year]
    URL := data.URL ++ [url]
    QRCode := data.QRCode ++ [qr] }

/-- `add_track_to_data`: the per-item enrichment.  The result pairs the
data dictionary after the call with the exception escaping it, if any
(the appends all happen after the fallible steps, so an escaping
exception leaves the store unchanged). -/
def add_track_to_data (env : Env) (item : Item) (spotify_type : SpotifyType)
    (data : CardData) : CardData × Option PyError :=
  match extract_track_info item spotify_type with
  | none => (data, none)
  | some track_info =>
    let artist := track_info.artists.head?
    let title := track_info.name
    match env.discogs artist title with
    | .err => (data, none)
    | .ok discogs_data =>
      match extract_year_from_discogs_data env discogs_data artist title item with
      | .error e => (data, some e)
      | .ok year => (pushRecord data artist title year track_info.url track_info.url, none)

/-- `add_tracks_to_data`: the loop over `results["items"]`; an exception
escaping one iteration aborts the loop (nothing in the call chain catches
it before `main`). -/
def add_tracks_to_data (env : Env) (items : List Item) (spotify_type : SpotifyType)
    (data : CardData) : CardData × Option PyError :=
  match items with
  | [] => (data, none)
  | it :: rest =>
    match add_track_to_data env it spotify_type data with
    | (d, some e) => (d, some e)
    | (d, none) => add_tracks_to_data env rest spotify_type d

/-- The initial `data` dictionary of `main`: five empty columns. -/
def initial_data : CardData :=
  ⟨[], [], [], [], []⟩

/-! ## Derived predicates and concrete fixtures used by the theorems -/

/-- `l` has no occurrence of `op` followed (anywhere later) by `cl`. -/
def PairFree (op cl : Char) (l : List Char) : Prop :=
  ¬ [op, cl].Sublist l

/-- Some position of `l` matches `\s*<op>.*?<cl>\s*`. -/
def hasMatchBrk (op cl : Char) : List Char → Bool
  | [] => false
  | c :: cs => (matchBrk op cl (c :: cs)).isSome || hasMatchBrk op cl cs

/-- Some position of `l` matches `\s*-.*`. -/
def hasMatchHyp : List Char → Bool
  | [] => false
  | c :: cs => (matchHyp (c :: cs)).isSome || hasMatchHyp cs

/-- The five columns of the record store have equal length. -/
def EqLen (d : CardData) : Prop :=
  d.Artist.length = d.Title.length ∧ d.Title.length = d.Year.length ∧
    d.Year.length = d.URL.length ∧ d.URL.length = d.QRCode.length

/-- The conditions under which the stage-3 Spotify album lookup raises:
the item has no `album` key, the album object has no `id`, or the API
call fails. -/
def stage3Fails (env : Env) (item : Item) : Prop :=
  item.self.album? = none ∨
    ∃ alb, item.self.album? = some alb ∧
      (alb.id? = none ∨ ∃ aid, alb.id? = some aid ∧ env.spotifyAlbum aid = .err)

/-- An environment in which every network call fails. -/
def envAllErr : Env :=
  ⟨fun _ _ => .err, fun _ => .err, fun _ => .err⟩

/-- A track dictionary with all identity fields present and no album. -/
def tdFull : TrackData :=
  ⟨some "id0", some "Title", some "url0", some ["Artist"], none⟩

/-- An album-shaped item whose dictionary has no `album` key. -/
def itemNoAlbum : Item :=
  ⟨none, tdFull⟩

/-- The two releases of the claimed MusicBrainz example: one dated
2005-03-01 with no artist credit, one dated 1999-06-01 credited to
"Various Artists". -/
def relPlain : MBRelease :=
  ⟨some "R1", some "2005-03-01", none⟩

/-- See `relPlain`. -/
def relVA : MBRelease :=
  ⟨some "R2", some "1999-06-01", some (some "Various Artists")⟩

/-- Environment for the MusicBrainz example: Discogs errors, MusicBrainz
returns one recording with the two example releases. -/
def envMB : Env :=
  ⟨fun _ _ => .err, fun _ => .ok [⟨some [relPlain, relVA]⟩], fun _ => .err⟩

/-- Environment for the stage-3 counterexample: Discogs and MusicBrainz
yield nothing, while the Spotify album lookup would answer 1975-06-01. -/
def envSpotifyOnly : Env :=
  ⟨fun _ _ => .err, fun _ => .err, fun _ => .ok (some "1975-06-01")⟩

/-- An item that does carry an album id (for the stage-3 analysis). -/
def itemWithAlbum : Item :=
  ⟨none, ⟨some "id0", some "Title", some "url0", some ["Artist"], some ⟨some "Alb", some "albid"⟩⟩⟩

/-- A track dictionary whose `artists` list is empty. -/
def tdNoArtist : TrackData :=
  ⟨some "id0", some "Title", some "url0", some [], none⟩

/-- Environment in which the Discogs search answers one candidate with
year "1988". -/
def envDiscogs1988 : Env :=
  ⟨fun _ _ => .ok ⟨some [⟨some "1988"⟩]⟩, fun _ => .err, fun _ => .err⟩

/-! ## Helper lemmas on the substitution machinery -/

theorem dropWhile_head_false {p : Char → Bool} {l : List Char} {c : Char} {cs : List Char}
    (h : l.dropWhile p = c :: cs) : p c = false := by
  induction l with
  | nil => simp at h
  | cons a as ih =>
    rw [List.dropWhile_cons] at h
    by_cases hp : p a
    · simp [hp] at h
      exact ih h
    · simp [hp] at h
      simp [← h.1, hp]

theorem dropWhile_idem (p : Char → Bool) (l : List Char) :
    List.dropWhile p (List.dropWhile p l) = List.dropWhile p l := by
  cases h : l.dropWhile p with
  | nil => simp
  | cons c cs =>
    rw [List.dropWhile_cons, dropWhile_head_false h]
    simp

theorem findClose_suffix {cl : Char} {l r : List Char} (h : findClose cl l = some r) :
    r <:+ l := by
  induction l with
  | nil => simp [findClose] at h
  | cons c cs ih =>
    rw [findClose] at h
    split at h
    · cases h
      exact List.suffix_cons _ _
    · split at h
      · cases h
      · exact (ih h).trans (List.suffix_cons _ _)

theorem findClose_length {cl : Char} {l r : List Char} (h : findClose cl l = some r) :
    r.length < l.length := by
  induction l with
  | nil => simp [findClose] at h
  | cons c cs ih =>
    rw [findClose] at h
    split at h
    · cases h
      simp
    · split at h
      · cases h
      · exact Nat.lt_trans (ih h) (by simp)

theorem findClose_mem {cl : Char} {l r : List Char} (h : findClose cl l = some r) :
    cl ∈ l := by
  induction l with
  | nil => simp [findClose] at h
  | cons c cs ih =>
    rw [findClose] at h
    split at h
    · rename_i hc
      exact hc ▸ List.mem_cons_self c cs
    · split at h
      · cases h
      · exact List.mem_cons_of_mem c (ih h)

theorem findClose_none_mem {cl : Char} {l : List Char} (h : findClose cl l = none)
    (hnl : '\n' ∉ l) : cl ∉ l := by
  induction l with
  | nil => simp
  | cons c cs ih =>
    rw [findClose] at h
    split at h
    · cases h
    · split at h
      · rename_i hnl2
        exact absurd (hnl2 ▸ List.mem_cons_self c cs) hnl
      · rename_i hc _
        intro hmem
        rcases List.mem_cons.mp hmem with h1 | h1
        · exact hc h1.symm
        · exact ih h (fun hx => hnl (List.mem_cons_of_mem c hx)) h1

theorem matchBrk_suffix {op cl : Char} {l r : List Char} (h : matchBrk op cl l = some r) :
    r <:+ l := by
  rw [matchBrk] at h
  split at h
  · cases h
  · rename_i c cs hd
    split at h
    · split at h
      · rename_i r0 hfc
        cases h
        calc r0.dropWhile isSpacePy <:+ r0 := List.dropWhile_suffix _
          _ <:+ cs := findClose_suffix hfc
          _ <:+ c :: cs := List.suffix_cons c cs
          _ <:+ l := hd ▸ List.dropWhile_suffix isSpacePy
      · cases h
    · cases h

theorem matchBrk_length {op cl : Char} {l r : List Char} (h : matchBrk op cl l = some r) :
    r.length + 2 ≤ l.length := by
  rw [matchBrk] at h
  split at h
  · cases h
  · rename_i c cs hd
    split at h
    · split at h
      · rename_i r0 hfc
        cases h
        have h1 : (r0.dropWhile isSpacePy).length ≤ r0.length :=
          (List.dropWhile_suffix _).length_le
        have h2 : r0.length < cs.length := findClose_length hfc
        have h3 : (c :: cs).length ≤ l.length :=
          (hd ▸ List.dropWhile_suffix isSpacePy (l := l)).length_le
        simp only [List.length_cons] at h3
        omega
      · cases h
    · cases h

theorem matchBrk_pair {op cl : Char} {l r : List Char} (h : matchBrk op cl l = some r) :
    [op, cl].Sublist l := by
  rw [matchBrk] at h
  split at h
  · cases h
  · rename_i c cs hd
    split at h
    · rename_i hcop
      split at h
      · rename_i r0 hfc
        have h1 : [op, cl].Sublist (c :: cs) := by
          rw [hcop]
          exact List.cons_sublist_cons.mpr (List.singleton_sublist.mpr (findClose_mem hfc))
        exact h1.trans (hd ▸ List.dropWhile_suffix isSpacePy (l := l)).sublist
      · cases h
    · cases h

theorem matchHyp_suffix {l r : List Char} (h : matchHyp l = some r) : r <:+ l := by
  rw [matchHyp] at h
  split at h
  · cases h
  · rename_i c cs hd
    split at h
    · cases h
      calc cs.dropWhile (fun x => x ≠ '\n') <:+ cs := List.dropWhile_suffix _
        _ <:+ c :: cs := List.suffix_cons c cs
        _ <:+ l := hd ▸ List.dropWhile_suffix isSpacePy
    · cases h

theorem matchHyp_length {l r : List Char} (h : matchHyp l = some r) :
    r.length + 1 ≤ l.length := by
  rw [matchHyp] at h
  split at h
  · cases h
  · rename_i c cs hd
    split at h
    · cases h
      have h1 : (cs.dropWhile (fun x => x ≠ '\n')).length ≤ cs.length :=
        (List.dropWhile_suffix _).length_le
      have h3 : (c :: cs).length ≤ l.length :=
        (hd ▸ List.dropWhile_suffix isSpacePy (l := l)).length_le
      simp only [List.length_cons] at h3
      omega
    · cases h

theorem matchHyp_dash {l r : List Char} (h : matchHyp l = some r) : '-' ∈ l := by
  rw [matchHyp] at h
  split at h
  · cases h
  · rename_i c cs hd
    split at h
    · rename_i hc
      have : c ∈ l := (hd ▸ List.dropWhile_suffix isSpacePy (l := l)).subset
        (List.mem_cons_self c cs)
      exact hc ▸ this
    · cases h

theorem subBrkF_sublist (op cl : Char) : ∀ (n : Nat) (l : List Char),
    (subBrkF op cl n l).Sublist l := by
  intro n
  induction n with
  | zero =>
    intro l
    exact List.Sublist.refl l
  | succ n ih =>
    intro l
    cases l with
    | nil => simp [subBrkF]
    | cons c cs =>
      cases hm : matchBrk op cl (c :: cs) with
      | some rest =>
        simp only [subBrkF, hm]
        exact (ih rest).trans (matchBrk_suffix hm).sublist
      | none =>
        simp only [subBrkF, hm]
        exact List.cons_sublist_cons.mpr (ih cs)

theorem subHypF_sublist : ∀ (n : Nat) (l : List Char), (subHypF n l).Sublist l := by
  intro n
  induction n with
  | zero =>
    intro l
    exact List.Sublist.refl l
  | succ n ih =>
    intro l
    cases l with
    | nil => simp [subHypF]
    | cons c cs =>
      cases hm : matchHyp (c :: cs) with
      | some rest =>
        simp only [subHypF, hm]
        exact (ih rest).trans (matchHyp_suffix hm).sublist
      | none =>
        simp only [subHypF, hm]
        exact List.cons_sublist_cons.mpr (ih cs)

theorem subBrkF_id_of_pairFree (op cl : Char) : ∀ (n : Nat) (l : List Char),
    PairFree op cl l → subBrkF op cl n l = l := by
  intro n
  induction n with
  | zero =>
    intro l _
    rfl
  | succ n ih =>
    intro l hpf
    cases l with
    | nil => rfl
    | cons c cs =>
      cases hm : matchBrk op cl (c :: cs) with
      | some rest => exact absurd (matchBrk_pair hm) hpf
      | none =>
        simp only [subBrkF, hm]
        rw [ih cs (fun hsub => hpf (hsub.cons c))]

theorem subHypF_id_of_no_dash : ∀ (n : Nat) (l : List Char),
    '-' ∉ l → subHypF n l = l := by
  intro n
  induction n with
  | zero =>
    intro l _
    rfl
  | succ n ih =>
    intro l hd
    cases l with
    | nil => rfl
    | cons c cs =>
      cases hm : matchHyp (c :: cs) with
      | some rest => exact absurd (matchHyp_dash hm) hd
      | none =>
        simp only [subHypF, hm]
        rw [ih cs (fun hx => hd (List.mem_cons_of_mem c hx))]

theorem subHypF_no_dash : ∀ (n : Nat) (l : List Char), l.length ≤ n →
    '-' ∉ subHypF n l := by
  intro n
  induction n with
  | zero =>
    intro l hl
    have : l = [] := List.eq_nil_of_length_eq_zero (Nat.le_zero.mp hl)
    subst this
    simp [subHypF]
  | succ n ih =>
    intro l hl
    cases l with
    | nil => simp [subHypF]
    | cons c cs =>
      cases hm : matchHyp (c :: cs) with
      | some rest =>
        simp only [subHypF, hm]
        refine ih rest ?_
        have := matchHyp_length hm
        simp only [List.length_cons] at this hl
        omega
      | none =>
        simp only [subHypF, hm]
        intro hmem
        rcases List.mem_cons.mp hmem with h1 | h1
        · rw [← h1] at hm
          rw [matchHyp] at hm
          have hsp : isSpacePy '-' = false := by decide
          rw [List.dropWhile_cons, hsp] at hm
          simp at hm
        · refine ih cs ?_ h1
          simp only [List.length_cons] at hl
          omega

theorem subBrkF_pairFree {op cl : Char} (hop : isSpacePy op = false) :
    ∀ (n : Nat) (l : List Char), l.length ≤ n → '\n' ∉ l →
      PairFree op cl (subBrkF op cl n l) := by
  intro n
  induction n with
  | zero =>
    intro l hl _
    have : l = [] := List.eq_nil_of_length_eq_zero (Nat.le_zero.mp hl)
    subst this
    intro hsub
    simp [subBrkF] at hsub
  | succ n ih =>
    intro l hl hnl
    cases l with
    | nil =>
      intro hsub
      simp [subBrkF] at hsub
    | cons c cs =>
      cases hm : matchBrk op cl (c :: cs) with
      | some rest =>
        simp only [subBrkF, hm]
        refine ih rest ?_ ?_
        · have := matchBrk_length hm
          simp only [List.length_cons] at this hl
          omega
        · intro hx
          exact hnl ((matchBrk_suffix hm).subset hx)
      | none =>
        simp only [subBrkF, hm]
        intro hsub
        cases hsub with
        | cons _ h2 =>
          refine ih cs ?_ (fun hx => hnl (List.mem_cons_of_mem c hx)) h2
          simp only [List.length_cons] at hl
          omega
        | cons₂ _ h2 =>
          have hclcs : cl ∈ cs :=
            (subBrkF_sublist op cl n cs).subset (List.singleton_sublist.mp h2)
          rw [matchBrk] at hm
          rw [List.dropWhile_cons, hop] at hm
          simp only [Bool.false_eq_true, if_false] at hm
          cases hfc : findClose cl cs with
          | some r =>
            rw [hfc] at hm
            simp at hm
          | none =>
            exact absurd hclcs
              (findClose_none_mem hfc (fun hx => hnl (List.mem_cons_of_mem _ hx)))

theorem PairFree.of_sublist {op cl : Char} {l l2 : List Char} (hsub : l2.Sublist l)
    (h : PairFree op cl l) : PairFree op cl l2 :=
  fun hp => h (hp.trans hsub)

theorem subBrkF_id_of_not_hasMatch (op cl : Char) : ∀ (n : Nat) (l : List Char),
    hasMatchBrk op cl l = false → subBrkF op cl n l = l := by
  intro n
  induction n with
  | zero =>
    intro l _
    rfl
  | succ n ih =>
    intro l hnm
    cases l with
    | nil => rfl
    | cons c cs =>
      cases hm : matchBrk op cl (c :: cs) with
      | some rest =>
        rw [hasMatchBrk, hm] at hnm
        simp at hnm
      | none =>
        rw [hasMatchBrk, hm] at hnm
        simp only [Option.isSome_none, Bool.false_or] at hnm
        simp only [subBrkF, hm]
        rw [ih cs hnm]

theorem subHypF_id_of_not_hasMatch : ∀ (n : Nat) (l : List Char),
    hasMatchHyp l = false → subHypF n l = l := by
  intro n
  induction n with
  | zero =>
    intro l _
    rfl
  | succ n ih =>
    intro l hnm
    cases l with
    | nil => rfl
    | cons c cs =>
      cases hm : matchHyp (c :: cs) with
      | some rest =>
        rw [hasMatchHyp, hm] at hnm
        simp at hnm
      | none =>
        rw [hasMatchHyp, hm] at hnm
        simp only [Option.isSome_none, Bool.false_or] at hnm
        simp only [subHypF, hm]
        rw [ih cs hnm]

theorem subBrk_sublist (op cl : Char) (l : List Char) : (subBrk op cl l).Sublist l :=
  subBrkF_sublist op cl l.length l

theorem subHyp_sublist (l : List Char) : (subHyp l).Sublist l :=
  subHypF_sublist l.length l

theorem subBrk_pairFree {op cl : Char} (hop : isSpacePy op = false) (l : List Char)
    (hnl : '\n' ∉ l) : PairFree op cl (subBrk op cl l) :=
  subBrkF_pairFree hop l.length l le_rfl hnl

theorem subHyp_no_dash (l : List Char) : '-' ∉ subHyp l :=
  subHypF_no_dash l.length l le_rfl

theorem subBrk_id_of_pairFree {op cl : Char} {l : List Char} (h : PairFree op cl l) :
    subBrk op cl l = l :=
  subBrkF_id_of_pairFree op cl l.length l h

theorem subHyp_id_of_no_dash {l : List Char} (h : '-' ∉ l) : subHyp l = l :=
  subHypF_id_of_no_dash l.length l h

theorem subBrk_id_of_not_hasMatch {op cl : Char} {l : List Char}
    (h : hasMatchBrk op cl l = false) : subBrk op cl l = l :=
  subBrkF_id_of_not_hasMatch op cl l.length l h

theorem subHyp_id_of_not_hasMatch {l : List Char} (h : hasMatchHyp l = false) :
    subHyp l = l :=
  subHypF_id_of_not_hasMatch l.length l h

theorem pyStrip_sublist (l : List Char) : (pyStrip l).Sublist l := by
  unfold pyStrip
  have h1 : (l.dropWhile isSpacePy).Sublist l := List.dropWhile_sublist _
  have h2 := (List.dropWhile_sublist (l := (l.dropWhile isSpacePy).reverse) isSpacePy).reverse
  rw [List.reverse_reverse] at h2
  exact h2.trans h1

theorem pyStrip_prefix_dropWhile (l : List Char) :
    pyStrip l <+: l.dropWhile isSpacePy := by
  unfold pyStrip
  rw [← List.reverse_suffix, List.reverse_reverse]
  exact List.dropWhile_suffix _

theorem dropWhile_pyStrip (l : List Char) :
    (pyStrip l).dropWhile isSpacePy = pyStrip l := by
  cases hB : pyStrip l with
  | nil => simp
  | cons b bs =>
    have hpre := pyStrip_prefix_dropWhile l
    rw [hB] at hpre
    obtain ⟨t, ht⟩ := hpre
    have hd : l.dropWhile isSpacePy = b :: (bs ++ t) := by
      rw [← ht]
      rfl
    have hb : isSpacePy b = false := dropWhile_head_false hd
    rw [List.dropWhile_cons, hb]
    simp

theorem pyStrip_idem (l : List Char) : pyStrip (pyStrip l) = pyStrip l := by
  have h1 := dropWhile_pyStrip l
  have h2 : (pyStrip l).reverse = (l.dropWhile isSpacePy).reverse.dropWhile isSpacePy := by
    unfold pyStrip
    rw [List.reverse_reverse]
  calc pyStrip (pyStrip l)
      = (((pyStrip l).dropWhile isSpacePy).reverse.dropWhile isSpacePy).reverse := rfl
    _ = ((pyStrip l).reverse.dropWhile isSpacePy).reverse := by rw [h1]
    _ = (((l.dropWhile isSpacePy).reverse.dropWhile isSpacePy).dropWhile
          isSpacePy).reverse := by rw [h2]
    _ = ((l.dropWhile isSpacePy).reverse.dropWhile isSpacePy).reverse := by
          rw [dropWhile_idem]
    _ = pyStrip l := rfl

/-! ## Claim C8: the Title Normalizer -/

/-- C8: `clean_song_title` removes, in sequence, runs enclosed in
parentheses, square brackets and curly braces (with delimiters and
surrounding whitespace), then a trailing hyphen and everything after it,
then trims; in particular it maps
"Song Title (Remastered 2009) - Radio Edit" to "Song Title", and an
input containing none of these patterns is returned unchanged except for
trimming. -/
theorem clean_song_title_spec :
    clean_song_title "Song Title (Remastered 2009) - Radio Edit" = "Song Title" ∧
    ∀ s : String, hasMatchBrk '(' ')' s.data = false →
      hasMatchBrk '[' ']' s.data = false → hasMatchBrk '{' '}' s.data = false →
      hasMatchHyp s.data = false → clean_song_title s = ⟨pyStrip s.data⟩ := by
  constructor
  · decide
  · intro s h1 h2 h3 h4
    apply String.ext
    show pyStrip (subHyp (subBrk '{' '}' (subBrk '[' ']' (subBrk '(' ')' s.data)))) =
      pyStrip s.data
    rw [subBrk_id_of_not_hasMatch h1, subBrk_id_of_not_hasMatch h2,
      subBrk_id_of_not_hasMatch h3, subHyp_id_of_not_hasMatch h4]

/-- Witness for C8 at the pattern-free input "Hello World". -/
theorem clean_song_title_spec_witness :
    hasMatchBrk '(' ')' ("Hello World").data = false ∧
    hasMatchBrk '[' ']' ("Hello World").data = false ∧
    hasMatchBrk '{' '}' ("Hello World").data = false ∧
    hasMatchHyp ("Hello World").data = false ∧
    clean_song_title "Hello World" = ⟨pyStrip ("Hello World").data⟩ :=
  ⟨by decide, by decide, by decide, by decide,
    clean_song_title_spec.2 "Hello World" (by decide) (by decide) (by decide) (by decide)⟩

/-! ## Claim C9: idempotence of the Title Normalizer -/

/-- C9 counterexample: normalization is not idempotent.  On
"(a\n[x]\n)" the parenthesis pass cannot match (a newline separates the
delimiters), the bracket pass deletes "\n[x]\n" and thereby glues
"(a" to ")", so the first pass returns "(a)" and a second pass returns
"". -/
theorem clean_song_title_not_idem :
    clean_song_title (clean_song_title "(a\n[x]\n)") ≠
      clean_song_title "(a\n[x]\n)" := by
  decide

/-- Unfolding equation of `clean_song_title`. -/
theorem clean_song_title_eq (title : String) :
    clean_song_title title =
      ⟨pyStrip (subHyp (subBrk '{' '}' (subBrk '[' ']' (subBrk '(' ')' title.data))))⟩ :=
  rfl

/-- Unfolding equation of `clean_song_title` on an explicit character list. -/
theorem clean_song_title_mk (l : List Char) :
    clean_song_title ⟨l⟩ =
      ⟨pyStrip (subHyp (subBrk '{' '}' (subBrk '[' ']' (subBrk '(' ')' l))))⟩ :=
  rfl

/-- C9 amended: the Title Normalizer is idempotent on every title that
contains no newline character (deleting a newline inside a whitespace
run is the only way a pass can expose a fresh delimiter pair to a later
pass). -/
theorem clean_song_title_idem (s : String) (hnl : '\n' ∉ s.data) :
    clean_song_title (clean_song_title s) = clean_song_title s := by
  have hop1 : isSpacePy '(' = false := by decide
  have hop2 : isSpacePy '[' = false := by decide
  have hop3 : isSpacePy '{' = false := by decide
  set A := subBrk '(' ')' s.data with hA
  set B := subBrk '[' ']' A with hB
  set C := subBrk '{' '}' B with hC
  set D := subHyp C with hD
  set T := pyStrip D with hT
  have hsA : A.Sublist s.data := subBrk_sublist _ _ _
  have hsB : B.Sublist A := subBrk_sublist _ _ _
  have hsC : C.Sublist B := subBrk_sublist _ _ _
  have hsD : D.Sublist C := subHyp_sublist _
  have hsT : T.Sublist D := pyStrip_sublist _
  have hnlA : '\n' ∉ A := fun hx => hnl (hsA.subset hx)
  have hnlB : '\n' ∉ B := fun hx => hnlA (hsB.subset hx)
  have hP1 : PairFree '(' ')' T :=
    PairFree.of_sublist (((hsT.trans hsD).trans hsC).trans hsB) (subBrk_pairFree hop1 _ hnl)
  have hP2 : PairFree '[' ']' T :=
    PairFree.of_sublist ((hsT.trans hsD).trans hsC) (subBrk_pairFree hop2 _ hnlA)
  have hP3 : PairFree '{' '}' T :=
    PairFree.of_sublist (hsT.trans hsD) (subBrk_pairFree hop3 _ hnlB)
  have hDash : '-' ∉ T := fun hx => subHyp_no_dash C (hsT.subset hx)
  have e1 : subBrk '(' ')' T = T := subBrk_id_of_pairFree hP1
  have e2 : subBrk '[' ']' T = T := subBrk_id_of_pairFree hP2
  have e3 : subBrk '{' '}' T = T := subBrk_id_of_pairFree hP3
  have e4 : subHyp T = T := subHyp_id_of_no_dash hDash
  have e5 : pyStrip T = T := by
    rw [hT]
    exact pyStrip_idem D
  rw [clean_song_title_eq s, ← hA, ← hB, ← hC, ← hD, ← hT, clean_song_title_mk T,
    e1, e2, e3, e4, e5]

/-- Witness for C9 at a newline-free input. -/
theorem clean_song_title_idem_witness :
    '\n' ∉ ("Hello (x) - y").data ∧
    clean_song_title (clean_song_title "Hello (x) - y") =
      clean_song_title "Hello (x) - y" :=
  ⟨by decide, clean_song_title_idem "Hello (x) - y" (by decide)⟩

/-! ## Claim C7: the Date Parser -/

theorem strptimeYmd_year {l : List Char} {d : PDate} (h : strptimeYmd l = some d) :
    ∃ r, parse4Y l = some (d.year, r) := by
  unfold strptimeYmd at h
  split at h
  · exact Option.noConfusion h
  · rename_i y r1 hp
    split at h
    · exact Option.noConfusion h
    · split at h
      · exact Option.noConfusion h
      · split at h
        · exact Option.noConfusion h
        · split at h
          · exact Option.noConfusion h
          · split at h
            · unfold mkDate at h
              split at h
              · cases h
                exact ⟨r1, hp⟩
              · exact Option.noConfusion h
            · exact Option.noConfusion h

theorem strptimeYm_year {l : List Char} {d : PDate} (h : strptimeYm l = some d) :
    ∃ r, parse4Y l = some (d.year, r) := by
  unfold strptimeYm at h
  split at h
  · exact Option.noConfusion h
  · rename_i y r1 hp
    split at h
    · exact Option.noConfusion h
    · split at h
      · exact Option.noConfusion h
      · split at h
        · unfold mkDate at h
          split at h
          · cases h
            exact ⟨r1, hp⟩
          · exact Option.noConfusion h
        · exact Option.noConfusion h

theorem strptimeY_year {l : List Char} {d : PDate} (h : strptimeY l = some d) :
    ∃ r, parse4Y l = some (d.year, r) := by
  unfold strptimeY at h
  split at h
  · exact Option.noConfusion h
  · rename_i y r1 hp
    split at h
    · unfold mkDate at h
      split at h
      · cases h
        exact ⟨r1, hp⟩
      · exact Option.noConfusion h
    · exact Option.noConfusion h

theorem strptimeYm_day {l : List Char} {d : PDate} (h : strptimeYm l = some d) :
    d.day = 1 := by
  unfold strptimeYm at h
  split at h
  · exact Option.noConfusion h
  · split at h
    · exact Option.noConfusion h
    · split at h
      · exact Option.noConfusion h
      · split at h
        · unfold mkDate at h
          split at h
          · cases h
            rfl
          · exact Option.noConfusion h
        · exact Option.noConfusion h

theorem strptimeY_monthday {l : List Char} {d : PDate} (h : strptimeY l = some d) :
    d.month = 1 ∧ d.day = 1 := by
  unfold strptimeY at h
  split at h
  · exact Option.noConfusion h
  · split at h
    · unfold mkDate at h
      split at h
      · cases h
        exact ⟨rfl, rfl⟩
      · exact Option.noConfusion h
    · exact Option.noConfusion h

/-- Unfolding equation of `try_parsing_date`: the loop over
`date_formats` is the three attempts in order, first success wins. -/
theorem try_parsing_date_eq (t : String) :
    try_parsing_date t =
      match strptimeYmd t.data with
      | some d => some d
      | none =>
        match strptimeYm t.data with
        | some d => some d
        | none =>
          match strptimeY t.data with
          | some d => some d
          | none => none :=
  rfl

/-- C7: the Date Parser tries `%Y-%m-%d`, `%Y-%m`, `%Y` in that fixed
order, returns the first successful parse, and `none` when no format
matches; every successful parse carries exactly the four leading year
digits of the text, and a year-only or year-month parse takes the first
day of the unspecified period ("1994" parses equal to 1994-01-01). -/
theorem try_parsing_date_spec :
    (∀ (t : String) (d : PDate), strptimeYmd t.data = some d →
      try_parsing_date t = some d) ∧
    (∀ (t : String) (d : PDate), strptimeYmd t.data = none →
      strptimeYm t.data = some d → try_parsing_date t = some d) ∧
    (∀ (t : String) (d : PDate), strptimeYmd t.data = none →
      strptimeYm t.data = none → strptimeY t.data = some d →
      try_parsing_date t = some d) ∧
    (∀ t : String, strptimeYmd t.data = none → strptimeYm t.data = none →
      strptimeY t.data = none → try_parsing_date t = none) ∧
    (∀ (t : String) (d : PDate), try_parsing_date t = some d →
      ∃ r, parse4Y t.data = some (d.year, r)) ∧
    (∀ (t : String) (d : PDate), strptimeYm t.data = some d → d.day = 1) ∧
    (∀ (t : String) (d : PDate), strptimeY t.data = some d →
      d.month = 1 ∧ d.day = 1) ∧
    try_parsing_date "1994" = try_parsing_date "1994-01-01" ∧
    try_parsing_date "1994" = some ⟨1994, 1, 1⟩ := by
  refine ⟨?_, ?_, ?_, ?_, ?_, ?_, ?_, ?_, ?_⟩
  · intro t d h
    rw [try_parsing_date_eq, h]
  · intro t d h1 h2
    rw [try_parsing_date_eq, h1, h2]
  · intro t d h1 h2 h3
    rw [try_parsing_date_eq, h1, h2, h3]
  · intro t h1 h2 h3
    rw [try_parsing_date_eq, h1, h2, h3]
  · intro t d h
    rw [try_parsing_date_eq] at h
    split at h
    · rename_i d1 h1
      cases h
      exact strptimeYmd_year h1
    · split at h
      · rename_i d1 h1
        cases h
        exact strptimeYm_year h1
      · split at h
        · rename_i d1 h1
          cases h
          exact strptimeY_year h1
        · exact Option.noConfusion h
  · intro t d h
    exact strptimeYm_day h
  · intro t d h
    exact strptimeY_monthday h
  · decide
  · decide

/-- Witness for C7 at concrete dates. -/
theorem try_parsing_date_spec_witness :
    try_parsing_date "1994-06-07" = some ⟨1994, 6, 7⟩ ∧
    (∃ r, parse4Y ("2005-03-01").data = some (2005, r)) :=
  ⟨try_parsing_date_spec.1 "1994-06-07" ⟨1994, 6, 7⟩ (by decide),
   try_parsing_date_spec.2.2.2.2.1 "2005-03-01" ⟨2005, 3, 1⟩ (by decide)⟩

/-! ## Claim C5: earliest Discogs year wins, later sources unconsulted -/

/-- C5: with Discogs candidates carrying years 2001, 1998 and 2010, the
Resolver returns "1998" — ascending sort, first element — for every
behaviour of the MusicBrainz and Spotify oracles, so neither fallback
source is consulted. -/
theorem extract_year_earliest_discogs :
    ∀ (env : Env) (artist : Option String) (title : String) (item : Item),
      extract_year_from_discogs_data env
        ⟨some [⟨some "2001"⟩, ⟨some "1998"⟩, ⟨some "2010"⟩]⟩ artist title item =
        .ok "1998" :=
  fun _ _ _ _ => rfl

/-! ## Claim C6: the MusicBrainz stage -/

theorem candLe_refl (a : MBCand) : candLe a a := by
  unfold candLe PDate.le
  omega

theorem insertionSort_eq_nil_iff {α : Type} (r : α → α → Prop) [DecidableRel r]
    (l : List α) : List.insertionSort r l = [] ↔ l = [] := by
  constructor
  · intro h
    have hperm := List.perm_insertionSort r l
    rw [h] at hperm
    exact hperm.symm.eq_nil
  · intro h
    subst h
    rfl

/-- Unfolding equation of `mb_process` on a nonempty recordings list. -/
theorem mb_process_cons (rec0 : MBRecording) (rest : List MBRecording) :
    mb_process (rec0 :: rest) =
      match rec0.releases? with
      | none => .error (.keyError "releases")
      | some rels =>
        match mbCandidates rels with
        | .error e => .error e
        | .ok cands =>
          match List.insertionSort candLe (mbSurvivors cands) with
          | [] => .ok "N/A"
          | c :: _ => .ok c.dateStr :=
  rfl

theorem candLe_sort_head {l : List MBCand} {c : MBCand} {rest : List MBCand}
    (h : List.insertionSort candLe l = c :: rest) :
    c ∈ l ∧ ∀ b ∈ l, candLe c b := by
  have hperm := List.perm_insertionSort candLe l
  rw [h] at hperm
  refine ⟨hperm.mem_iff.mp (List.mem_cons_self c rest), ?_⟩
  intro b hb
  have hb2 : b ∈ c :: rest := hperm.mem_iff.mpr hb
  rcases List.mem_cons.mp hb2 with h1 | h1
  · subst h1
    exact candLe_refl b
  · have hsorted := List.sorted_insertionSort candLe l
    rw [h] at hsorted
    exact List.rel_of_sorted_cons hsorted b h1

/-- C6: the MusicBrainz stage consults only the first matching
recording's releases; among the candidates built from releases carrying
a date it drops "Various Artists" credits and unparseable dates, sorts
the survivors ascending by parsed date and returns the earliest date
string ("N/A" with no survivors); on the claimed example — releases
dated 2005-03-01 (no credit) and 1999-06-01 (credited to "Various
Artists"), Discogs yielding no candidate with a year — the Resolver
returns "2005". -/
theorem get_release_year_musicbrainz_spec :
    (∀ (rec0 : MBRecording) (rest : List MBRecording),
      mb_process (rec0 :: rest) = mb_process [rec0]) ∧
    (∀ (rec0 : MBRecording) (rest : List MBRecording) (rels : List MBRelease)
        (cands : List MBCand), rec0.releases? = some rels →
      mbCandidates rels = .ok cands →
      (mbSurvivors cands = [] ∧ mb_process (rec0 :: rest) = .ok "N/A") ∨
      (∃ c ∈ mbSurvivors cands, mb_process (rec0 :: rest) = .ok c.dateStr ∧
        ∀ b ∈ mbSurvivors cands, candLe c b)) ∧
    extract_year_from_discogs_data envMB ⟨some []⟩ (some "Artist") "Title" itemNoAlbum
      = .ok "2005" := by
  refine ⟨?_, ?_, ?_⟩
  · intro rec0 rest
    rfl
  · intro rec0 rest rels cands hrel hcands
    rw [mb_process_cons]
    simp only [hrel, hcands]
    cases hs : List.insertionSort candLe (mbSurvivors cands) with
    | nil =>
      left
      exact ⟨(insertionSort_eq_nil_iff _ _).mp hs, by simp only [hs]⟩
    | cons c rest2 =>
      right
      obtain ⟨hmem, hmin⟩ := candLe_sort_head hs
      exact ⟨c, hmem, by simp only [hs], hmin⟩
  · rfl

/-- Witness for C6 at the claimed example releases. -/
theorem get_release_year_musicbrainz_spec_witness :
    (mbSurvivors [⟨"R1", "2005-03-01", "N/A"⟩, ⟨"R2", "1999-06-01", "Various Artists"⟩]
        = [] ∧
      mb_process [⟨some [relPlain, relVA]⟩] = .ok "N/A") ∨
    (∃ c ∈ mbSurvivors [⟨"R1", "2005-03-01", "N/A"⟩,
        ⟨"R2", "1999-06-01", "Various Artists"⟩],
      mb_process [⟨some [relPlain, relVA]⟩] = .ok c.dateStr ∧
      ∀ b ∈ mbSurvivors [⟨"R1", "2005-03-01", "N/A"⟩,
        ⟨"R2", "1999-06-01", "Various Artists"⟩], candLe c b) :=
  get_release_year_musicbrainz_spec.2.1 ⟨some [relPlain, relVA]⟩ [] [relPlain, relVA]
    [⟨"R1", "2005-03-01", "N/A"⟩, ⟨"R2", "1999-06-01", "Various Artists"⟩] rfl rfl

/-! ## Claim C1: the Resolver's failure boundary -/

/-- Unfolding equation of the Resolver when the `results` key is present. -/
theorem extract_year_some_results (env : Env) (artist : Option String) (title : String)
    (item : Item) (results : List DiscogsResult) :
    extract_year_from_discogs_data env ⟨some results⟩ artist title item =
      match List.insertionSort dgLe (results.filter (fun r => r.year?.isSome)) with
      | r :: _ => .ok (dgYear r)
      | [] =>
        match get_release_year_musicbrainz env artist title with
        | .error e => .error e
        | .ok date => if date ≠ "N/A" then .ok (pySplitHeadDash date) else .ok "N/A" :=
  rfl

/-- Unfolding equation of the Resolver when the `results` key is absent. -/
theorem extract_year_no_results (env : Env) (artist : Option String) (title : String)
    (item : Item) :
    extract_year_from_discogs_data env ⟨none⟩ artist title item =
      match get_release_year_musicbrainz env artist title with
      | .error e => .error e
      | .ok date =>
        if date ≠ "N/A" then .ok (pySplitHeadDash date)
        else
          match item.self.album? with
          | none => .error (.keyError "album")
          | some alb =>
            match alb.id? with
            | none => .error (.keyError "id")
            | some album_id =>
              match env.spotifyAlbum album_id with
              | .err => .error .spotifyApiError
              | .ok rd? =>
                match rd? with
                | some rd => .ok (pySplitHeadDash rd)
                | none => .ok "N/A" :=
  rfl

/-- C1 counterexample: an exception does escape the Resolver.  With a
Discogs response lacking the `results` key, MusicBrainz yielding
nothing, and an item without an `album` key, `item["album"]` raises a
`KeyError` that propagates out of `extract_year_from_discogs_data`. -/
theorem extract_year_raises_cex :
    extract_year_from_discogs_data envAllErr ⟨none⟩ (some "Artist") "Title" itemNoAlbum
      = .error (.keyError "album") :=
  rfl

/-- C1 amended: the Resolver returns a year string or "N/A" except that
an exception escapes exactly when (a) the MusicBrainz stage is reached
and raises on a malformed response shape, or (b) the Discogs response
has no `results` key, MusicBrainz yields nothing, and the stage-3
Spotify album lookup fails (no `album` key on the item, no `id` on the
album, or the API call raising). -/
theorem extract_year_total_unless :
    ∀ (env : Env) (dd : DiscogsData) (artist : Option String) (title : String)
      (item : Item),
      (∃ y, extract_year_from_discogs_data env dd artist title item = .ok y) ∨
      (∃ e, extract_year_from_discogs_data env dd artist title item = .error e ∧
        (get_release_year_musicbrainz env artist title = .error e ∨
          (get_release_year_musicbrainz env artist title = .ok "N/A" ∧
            dd.results? = none ∧ stage3Fails env item))) := by
  intro env dd artist title item
  obtain ⟨ro⟩ := dd
  cases ro with
  | some results =>
    rw [extract_year_some_results]
    cases hs : List.insertionSort dgLe (results.filter (fun r => r.year?.isSome)) with
    | cons r rest =>
      left
      exact ⟨dgYear r, by simp only [hs]⟩
    | nil =>
      simp only [hs]
      cases hmb : get_release_year_musicbrainz env artist title with
      | error e =>
        right
        exact ⟨e, rfl, Or.inl rfl⟩
      | ok date =>
        by_cases hd : date = "N/A"
        · subst hd
          left
          exact ⟨"N/A", by simp⟩
        · left
          exact ⟨pySplitHeadDash date, by simp [hd]⟩
  | none =>
    rw [extract_year_no_results]
    cases hmb : get_release_year_musicbrainz env artist title with
    | error e =>
      right
      exact ⟨e, rfl, Or.inl rfl⟩
    | ok date =>
      by_cases hd : date = "N/A"
      · subst hd
        simp only [ne_eq, not_true_eq_false, if_false, reduceIte]
        cases halb : item.self.album? with
        | none =>
          right
          refine ⟨.keyError "album", ?_, Or.inr ⟨by trivial, by trivial, Or.inl halb⟩⟩
          simp only [halb]
        | some alb =>
          cases hid : alb.id? with
          | none =>
            right
            refine ⟨.keyError "id", ?_,
              Or.inr ⟨by trivial, by trivial, Or.inr ⟨alb, halb, Or.inl hid⟩⟩⟩
            simp only [halb, hid]
          | some aid =>
            cases hsp : env.spotifyAlbum aid with
            | err =>
              right
              refine ⟨.spotifyApiError, ?_,
                Or.inr ⟨by trivial, by trivial, Or.inr ⟨alb, halb, Or.inr ⟨aid, hid, hsp⟩⟩⟩⟩
              simp only [halb, hid, hsp]
            | ok rd =>
              left
              cases rd with
              | some rds =>
                exact ⟨pySplitHeadDash rds, by simp only [halb, hid, hsp]⟩
              | none =>
                exact ⟨"N/A", by simp only [halb, hid, hsp]⟩
      · left
        exact ⟨pySplitHeadDash date, by simp [hd]⟩

/-! ## Claim C3: when stage 3 is reached -/

/-- C3 counterexample: with the `results` key present but holding no
candidate with a year, and MusicBrainz yielding nothing, the Resolver
returns "N/A" without querying the Spotify album-date adapter — even
though that adapter would have answered 1975-06-01 for the item's album
id. -/
theorem extract_year_stage3_skipped_cex :
    extract_year_from_discogs_data envSpotifyOnly ⟨some []⟩ (some "Artist") "Title"
        itemWithAlbum = .ok "N/A" ∧
    envSpotifyOnly.spotifyAlbum "albid" = .ok (some "1975-06-01") :=
  ⟨rfl, rfl⟩

/-- C3 amended: stage 3 (the Spotify album date) is consulted only when
the Discogs response lacks the `results` key entirely.  When `results`
is present but carries no candidate with a year and MusicBrainz yields
nothing, the Resolver returns "N/A" for every Spotify oracle; when
`results` is absent and MusicBrainz yields nothing, the Resolver
returns the album date's year component (or "N/A" when the album has no
release date). -/
theorem extract_year_stage3_only_without_results_key :
    (∀ (env : Env) (artist : Option String) (title : String) (item : Item)
        (rs : List DiscogsResult),
      rs.filter (fun r => r.year?.isSome) = [] →
      get_release_year_musicbrainz env artist title = .ok "N/A" →
      extract_year_from_discogs_data env ⟨some rs⟩ artist title item = .ok "N/A") ∧
    (∀ (env : Env) (artist : Option String) (title : String) (item : Item)
        (alb : AlbumObj) (aid : String) (rd? : Option String),
      get_release_year_musicbrainz env artist title = .ok "N/A" →
      item.self.album? = some alb → alb.id? = some aid →
      env.spotifyAlbum aid = .ok rd? →
      extract_year_from_discogs_data env ⟨none⟩ artist title item =
        .ok (match rd? with
             | some rd => pySplitHeadDash rd
             | none => "N/A")) := by
  constructor
  · intro env artist title item rs hfil hmb
    rw [extract_year_some_results, hfil]
    simp only [List.insertionSort, hmb]
    simp
  · intro env artist title item alb aid rd? hmb halb hid hsp
    rw [extract_year_no_results]
    simp only [hmb]
    rw [if_neg (by simp)]
    simp only [halb, hid, hsp]
    cases rd? with
    | some rd => rfl
    | none => rfl

/-- Witness for C3: with no `results` key, stage 3 runs and yields the
album date's year. -/
theorem extract_year_stage3_only_without_results_key_witness :
    extract_year_from_discogs_data envSpotifyOnly ⟨none⟩ (some "Artist") "Title"
      itemWithAlbum = .ok "1975" :=
  extract_year_stage3_only_without_results_key.2 envSpotifyOnly (some "Artist") "Title"
    itemWithAlbum ⟨some "Alb", some "albid"⟩ "albid" (some "1975-06-01") rfl rfl rfl rfl

/-! ## Claims C2, C4, C10: the enrichment step and the record store -/

/-- Unfolding equation of `add_track_to_data` when identity extraction
succeeds. -/
theorem add_track_to_data_some (env : Env) (item : Item) (t : SpotifyType)
    (data : CardData) (info : TrackInfo) (h : extract_track_info item t = some info) :
    add_track_to_data env item t data =
      match env.discogs info.artists.head? info.name with
      | .err => (data, none)
      | .ok dd =>
        match extract_year_from_discogs_data env dd info.artists.head? info.name item with
        | .error e => (data, some e)
        | .ok year =>
          (pushRecord data info.artists.head? info.name year info.url info.url, none) := by
  unfold add_track_to_data
  rw [h]

/-- Unfolding equation of `add_track_to_data` when identity extraction
fails: the track is dropped. -/
theorem add_track_to_data_none (env : Env) (item : Item) (t : SpotifyType)
    (data : CardData) (h : extract_track_info item t = none) :
    add_track_to_data env item t data = (data, none) := by
  unfold add_track_to_data
  rw [h]

/-- C2 counterexample: a Discogs fetch failure is NOT treated as zero
candidates.  With every network call failing and a track whose identity
extraction succeeds, `add_track_to_data` returns with the record store
unchanged: no later source is consulted and no record (year or "N/A")
is appended for the track. -/
theorem add_track_discogs_failure_cex :
    add_track_to_data envAllErr itemNoAlbum .album initial_data = (initial_data, none) ∧
    initial_data.Year = [] :=
  ⟨rfl, rfl⟩

/-- C2 amended: a fetch failure of the Discogs search drops the track —
`add_track_to_data` returns immediately with all five columns unchanged
and no exception, so the run continues with the next track, but the
cascade is not run for this one. -/
theorem add_track_discogs_failure_drops :
    ∀ (env : Env) (item : Item) (t : SpotifyType) (data : CardData) (info : TrackInfo),
      extract_track_info item t = some info →
      env.discogs info.artists.head? info.name = .err →
      add_track_to_data env item t data = (data, none) := by
  intro env item t data info hinfo hd
  rw [add_track_to_data_some env item t data info hinfo, hd]

/-- Witness for C2 on a concrete item. -/
theorem add_track_discogs_failure_drops_witness :
    add_track_to_data envAllErr itemWithAlbum .album initial_data = (initial_data, none) :=
  add_track_discogs_failure_drops envAllErr itemWithAlbum .album initial_data
    ⟨"id0", "Title", ["Artist"], some "Alb", "url0"⟩ rfl rfl

/-- C4 counterexample: an empty artist list does not skip year
resolution.  With `artists = []`, the Discogs source is still queried
(here answering year "1988") and a record is appended with a null
Artist entry — resolution is neither skipped nor terminal. -/
theorem add_track_empty_artists_cex :
    add_track_to_data envDiscogs1988 ⟨none, tdNoArtist⟩ .album initial_data =
      (⟨[none], ["Title"], ["1988"], ["url0"], ["url0"]⟩, none) :=
  rfl

/-- C4 amended: when the extracted artist list is empty, the enrichment
step proceeds exactly as for any other track with a null (`None`)
artist: the Discogs search is issued, the Resolver runs, and on success
a record with a null Artist entry is appended. -/
theorem add_track_empty_artists_resolves :
    ∀ (env : Env) (item : Item) (t : SpotifyType) (data : CardData) (info : TrackInfo),
      extract_track_info item t = some info → info.artists = [] →
      add_track_to_data env item t data =
        (match env.discogs none info.name with
         | .err => (data, none)
         | .ok dd =>
           match extract_year_from_discogs_data env dd none info.name item with
           | .error e => (data, some e)
           | .ok year => (pushRecord data none info.name year info.url info.url, none)) := by
  intro env item t data info hinfo hart
  rw [add_track_to_data_some env item t data info hinfo, hart]
  rfl

/-- Witness for C4: the artistless track is resolved through Discogs
and appended after an existing record. -/
theorem add_track_empty_artists_resolves_witness :
    add_track_to_data envDiscogs1988 ⟨none, tdNoArtist⟩ .album
        ⟨[some "X"], ["T0"], ["1990"], ["u0"], ["u0"]⟩ =
      (⟨[some "X", none], ["T0", "Title"], ["1990", "1988"], ["u0", "url0"],
        ["u0", "url0"]⟩, none) :=
  (add_track_empty_artists_resolves envDiscogs1988 ⟨none, tdNoArtist⟩ .album
    ⟨[some "X"], ["T0"], ["1990"], ["u0"], ["u0"]⟩
    ⟨"id0", "Title", [], none, "url0"⟩ rfl rfl).trans rfl

/-- C10: the five output columns always have equal length: the store
starts with five empty columns, every `add_track_to_data` call either
appends exactly one element to each of the five columns or leaves all
five unchanged (also when an exception escapes, since the appends come
last), and the per-page loop `add_tracks_to_data` preserves the
invariant. -/
theorem record_store_columns_aligned :
    EqLen initial_data ∧
    (∀ (env : Env) (item : Item) (t : SpotifyType) (data : CardData),
      (add_track_to_data env item t data).1 = data ∨
      ((add_track_to_data env item t data).1.Artist.length = data.Artist.length + 1 ∧
        (add_track_to_data env item t data).1.Title.length = data.Title.length + 1 ∧
        (add_track_to_data env item t data).1.Year.length = data.Year.length + 1 ∧
        (add_track_to_data env item t data).1.URL.length = data.URL.length + 1 ∧
        (add_track_to_data env item t data).1.QRCode.length = data.QRCode.length + 1)) ∧
    (∀ (env : Env) (item : Item) (t : SpotifyType) (data : CardData),
      EqLen data → EqLen (add_track_to_data env item t data).1) ∧
    (∀ (env : Env) (items : List Item) (t : SpotifyType) (data : CardData),
      EqLen data → EqLen (add_tracks_to_data env items t data).1) := by
  have hdich : ∀ (env : Env) (item : Item) (t : SpotifyType) (data : CardData),
      (add_track_to_data env item t data).1 = data ∨
      ((add_track_to_data env item t data).1.Artist.length = data.Artist.length + 1 ∧
        (add_track_to_data env item t data).1.Title.length = data.Title.length + 1 ∧
        (add_track_to_data env item t data).1.Year.length = data.Year.length + 1 ∧
        (add_track_to_data env item t data).1.URL.length = data.URL.length + 1 ∧
        (add_track_to_data env item t data).1.QRCode.length = data.QRCode.length + 1) := by
    intro env item t data
    cases hinfo : extract_track_info item t with
    | none =>
      left
      rw [add_track_to_data_none env item t data hinfo]
    | some info =>
      rw [add_track_to_data_some env item t data info hinfo]
      split
      · left
        rfl
      · split
        · left
          rfl
        · right
          simp [pushRecord]
  have hpres : ∀ (env : Env) (item : Item) (t : SpotifyType) (data : CardData),
      EqLen data → EqLen (add_track_to_data env item t data).1 := by
    intro env item t data hEq
    rcases hdich env item t data with h | ⟨h1, h2, h3, h4, h5⟩
    · rw [h]
      exact hEq
    · obtain ⟨e1, e2, e3, e4⟩ := hEq
      exact ⟨by omega, by omega, by omega, by omega⟩
  have hloop : ∀ (env : Env) (items : List Item) (t : SpotifyType) (data : CardData),
      EqLen data → EqLen (add_tracks_to_data env items t data).1 := by
    intro env items
    induction items with
    | nil =>
      intro t data h
      exact h
    | cons it rest ih =>
      intro t data h
      have hstep := hpres env it t data h
      unfold add_tracks_to_data
      rcases hadd : add_track_to_data env it t data with ⟨d, oe⟩
      rw [hadd] at hstep
      cases oe with
      | none => exact ih t d hstep
      | some e => exact hstep
  exact ⟨⟨rfl, rfl, rfl, rfl⟩, hdich, hpres, hloop⟩

/-- Witness for C10: the invariant holds after a two-item page starting
from the empty store. -/
theorem record_store_columns_aligned_witness :
    EqLen (add_tracks_to_data envDiscogs1988 [⟨none, tdNoArtist⟩, itemNoAlbum] .album
      initial_data).1 :=
  record_store_columns_aligned.2.2.2 envDiscogs1988 [⟨none, tdNoArtist⟩, itemNoAlbum]
    .album initial_data ⟨rfl, rfl, rfl, rfl⟩
